import Mathlib

/-!
Verification development for the `otelsink` telemetry sink
(`src/otelsink/main.go`).

The program is a gRPC server with three structurally identical export
operations (traces, metrics, logs).  Each operation logs the request,
hands it to a persistence sink, and answers with an empty success
envelope or a generic Internal error.  The sink computes the path
`<root>/<stream>/<unix-nanoseconds>`, creates the directory, serializes
the message with protobuf, and writes the bytes to the file.

The embedding below models the filesystem as explicit state: a set of
existing directories and an association list from paths to file
contents.  Paths are lists of components (`filepath.Join` of clean
components is rendered by `pathString`).  OS-level failures that the
structural model cannot express (permissions and the like) are injected
through a `Faults` record.  Serialization (`proto.Marshal`) is a
parameter of the generic sink, exactly as the Go sink is generic over
`proto.Message`.
-/

namespace Otelsink

/-- A filesystem path, as its list of components. -/
abbrev Path := List String

/-- File contents, a sequence of bytes. -/
abbrev Bytes := List Nat

/-- Render a component path the way `filepath.Join` of clean components
does: components joined by slashes. -/
def pathString (p : Path) : String :=
  String.intercalate "/" p

/-- The nonempty component-wise prefixes of a path, shortest first.
These are the directories `os.MkdirAll` has to create. -/
def pathPrefixes : Path → List Path
  | [] => []
  | a :: rest => [a] :: (pathPrefixes rest).map (fun q => a :: q)

/-- Association-list lookup of a file by path (first match). -/
def lookupFile : List (Path × Bytes) → Path → Option Bytes
  | [], _ => none
  | e :: es, q => if e.1 = q then some e.2 else lookupFile es q

/-- Create or truncate-and-replace the entry at path `p`, as
`os.WriteFile` does for an existing or fresh path. -/
def updateFiles : List (Path × Bytes) → Path → Bytes → List (Path × Bytes)
  | [], p, b => [(p, b)]
  | e :: es, p, b => if e.1 = p then (p, b) :: es else e :: updateFiles es p b

/-- The filesystem state: the set of existing directories and the map
from file paths to file contents. -/
structure FS where
  dirs : List Path
  files : List (Path × Bytes)
deriving DecidableEq

/-- Whether a path currently names a file. -/
def FS.isFile (fs : FS) (q : Path) : Bool :=
  (lookupFile fs.files q).isSome

/-- Whether a path currently names a directory. -/
def FS.isDir (fs : FS) (q : Path) : Bool :=
  decide (q ∈ fs.dirs)

/-- Injected OS-level failures (permission errors and the like) that the
structural filesystem model cannot itself produce. -/
structure Faults where
  mkdirFault : Path → Bool
  writeFault : Path → Bool

/-- The fault-free environment. -/
def noFaults : Faults :=
  { mkdirFault := fun _ => false, writeFault := fun _ => false }

/-- Model of `os.MkdirAll(d, 0755)`: fails on an injected fault or when
some prefix of `d` already names a file; otherwise creates every missing
directory on the way to `d` (idempotent, recursive creation). -/
def FS.mkdirAll (fs : FS) (fl : Faults) (d : Path) : Except String FS :=
  if fl.mkdirFault d then .error "mkdir fault"
  else if (pathPrefixes d).any (fun q => fs.isFile q) then .error "not a directory"
  else .ok { fs with
    dirs := fs.dirs ++ (pathPrefixes d).filter (fun q => decide (q ∉ fs.dirs)) }

/-- Model of `os.WriteFile(p, b, 0644)`: fails on an injected fault,
when the parent directory is missing, or when `p` is a directory;
otherwise writes the full contents to `p`, replacing any existing
file at that path. -/
def FS.writeFile (fs : FS) (fl : Faults) (p : Path) (b : Bytes) : Except String FS :=
  if fl.writeFault p then .error "write fault"
  else if !(fs.isDir p.dropLast) then .error "no such file or directory"
  else if fs.isDir p then .error "is a directory"
  else .ok { fs with files := updateFiles fs.files p b }

/-- The character for a single decimal digit. -/
def digitChar (n : Nat) : Char :=
  Char.ofNat (48 + n)

/-- Decimal digits of a natural number, most significant first. -/
def natToDecimal (n : Nat) : List Char :=
  if _h : n < 10 then [digitChar n]
  else natToDecimal (n / 10) ++ [digitChar (n % 10)]
termination_by n
decreasing_by
  exact Nat.div_lt_self (by omega) (by omega)

/-- Model of `strconv.FormatInt(v, 10)`: the base-10 rendering of an
integer, with a leading minus sign when negative. -/
def formatInt (v : Int) : String :=
  if v < 0 then String.mk ('-' :: natToDecimal (-v).toNat)
  else String.mk (natToDecimal v.toNat)

/-- Read back one decimal digit character. -/
def parseDigit (c : Char) : Option Nat :=
  if 48 ≤ c.toNat ∧ c.toNat ≤ 57 then some (c.toNat - 48) else none

/-- Read back a digit string, accumulating left to right. -/
def parseDecimalAux (acc : Nat) : List Char → Option Nat
  | [] => some acc
  | c :: cs =>
    match parseDigit c with
    | some d => parseDecimalAux (acc * 10 + d) cs
    | none => none

/-- Read a base-10 integer string back to the integer it denotes. -/
def parseDecimal (s : String) : Option Int :=
  match s.toList with
  | [] => none
  | c :: cs =>
    if c = '-' then
      if cs.isEmpty then none
      else (parseDecimalAux 0 cs).map (fun m => -(Int.ofNat m))
    else (parseDecimalAux 0 (c :: cs)).map (fun m => Int.ofNat m)

/-- Model of a `context.Context` as seen by this program: only its
`Err()` observation matters (nil before cancellation, non-nil after). -/
structure Ctx where
  err : Option String
deriving DecidableEq

/-- The `context.Canceled` error text. -/
def contextCanceled : String := "context canceled"

/-- A context cancelled by `signal.NotifyContext` after an interrupt:
its `Err()` is `context.Canceled`, which is non-nil. -/
def interruptedCtx : Ctx := { err := some contextCanceled }

/-- The persistence sink (`type Sink struct`, main.go line 117): it owns
only the root storage directory. -/
structure Sink where
  dir : String

/-- Model of `Sink.Export` (main.go lines 121-138).  The receipt
timestamp `time.Now().UnixNano()` is the explicit parameter `now`; the
protobuf serializer `proto.Marshal` is the parameter `marshal`, since
the Go method is generic over `proto.Message`.  Returns the filesystem
after the call together with the error result; on failure the
filesystem reflects exactly the mutations made before the failing
step. -/
def Sink.Export {μ : Type} (marshal : μ → Except String Bytes) (s : Sink)
    (_ctx : Ctx) (fl : Faults) (fs : FS) (stream : String) (msg : μ)
    (now : Int) : FS × Except String Unit :=
  let n := formatInt now
  let p : Path := [s.dir, stream, n]
  match fs.mkdirAll fl p.dropLast with
  | .error e => (fs, .error ("failed to create directory " ++ pathString p.dropLast ++ ": " ++ e))
  | .ok fs1 =>
    match marshal msg with
    | .error e => (fs1, .error ("failed to serialize message: " ++ e))
    | .ok b =>
      match fs1.writeFile fl p b with
      | .error e => (fs1, .error ("failed to write file " ++ pathString p ++ ": " ++ e))
      | .ok fs2 => (fs2, .ok ())

/-- gRPC status codes used by this program. -/
inductive Code where
  | internal
deriving DecidableEq

/-- A gRPC error status, as built by `status.Errorf`. -/
structure GrpcStatus where
  code : Code
  message : String
deriving DecidableEq

/-- The empty success envelope for trace export. -/
structure ExportTraceServiceResponse where
deriving DecidableEq

/-- The empty success envelope for metrics export. -/
structure ExportMetricsServiceResponse where
deriving DecidableEq

/-- The empty success envelope for logs export. -/
structure ExportLogsServiceResponse where
deriving DecidableEq

/-- Everything observable about one server-side export call: the
response (or error) sent to the caller, the filesystem afterwards, and
the local diagnostic log lines the call emitted. -/
structure ServerResult (ρ : Type) where
  resp : Except GrpcStatus ρ
  fs : FS
  logs : List String

/-- The trace service implementation (main.go line 74). -/
structure traceServer where
  sink : Sink

/-- The metrics service implementation (main.go line 88). -/
structure metricsServer where
  sink : Sink

/-- The logs service implementation (main.go line 102). -/
structure logsServer where
  sink : Sink

/-- Model of `traceServer.Export` (main.go lines 80-86): log the request
(`prototext.Format` is the parameter `format`), delegate to the sink
with stream `"traces"`, and answer with the empty envelope on success
or a generic Internal error on failure. -/
def traceServer.Export {μ : Type} (marshal : μ → Except String Bytes)
    (format : μ → String) (s : traceServer) (ctx : Ctx) (fl : Faults)
    (fs : FS) (req : μ) (now : Int) : ServerResult ExportTraceServiceResponse :=
  let logs := ["trace.Export " ++ format req]
  match Sink.Export marshal s.sink ctx fl fs "traces" req now with
  | (fs2, .error _) =>
    { resp := .error { code := .internal, message := "error writing data" }, fs := fs2, logs := logs }
  | (fs2, .ok _) => { resp := .ok {}, fs := fs2, logs := logs }

/-- Model of `metricsServer.Export` (main.go lines 94-100), identical in
shape to the trace operation but using stream `"metrics"`. -/
def metricsServer.Export {μ : Type} (marshal : μ → Except String Bytes)
    (format : μ → String) (s : metricsServer) (ctx : Ctx) (fl : Faults)
    (fs : FS) (req : μ) (now : Int) : ServerResult ExportMetricsServiceResponse :=
  let logs := ["metrics.Export " ++ format req]
  match Sink.Export marshal s.sink ctx fl fs "metrics" req now with
  | (fs2, .error _) =>
    { resp := .error { code := .internal, message := "error writing data" }, fs := fs2, logs := logs }
  | (fs2, .ok _) => { resp := .ok {}, fs := fs2, logs := logs }

/-- Model of `logsServer.Export` (main.go lines 108-115), identical in
shape to the trace operation but using stream `"logs"`. -/
def logsServer.Export {μ : Type} (marshal : μ → Except String Bytes)
    (format : μ → String) (s : logsServer) (ctx : Ctx) (fl : Faults)
    (fs : FS) (req : μ) (now : Int) : ServerResult ExportLogsServiceResponse :=
  let logs := ["logs.Export " ++ format req]
  match Sink.Export marshal s.sink ctx fl fs "logs" req now with
  | (fs2, .error _) =>
    { resp := .error { code := .internal, message := "error writing data" }, fs := fs2, logs := logs }
  | (fs2, .ok _) => { resp := .ok {}, fs := fs2, logs := logs }

/-- The two events `run` can observe in its final `select` (main.go
lines 66-71): the signal context becoming done, or the serving loop
returning an error. -/
inductive SelectEvent where
  | ctxDone
  | serveErr (e : Option String)

/-- Model of `run` (main.go lines 35-72) after its setup: if the TCP
listen failed, return that error; otherwise block in `select` and
return `ctx.Err()` when the context is done, or the serving loop result
when `Serve` returns. -/
def run (ctx : Ctx) (listenResult : Except String Unit) (ev : SelectEvent) : Option String :=
  match listenResult with
  | .error e => some ("failed to listen on localhost:3000: " ++ e)
  | .ok _ =>
    match ev with
    | .ctxDone => ctx.err
    | .serveErr e => e

/-- Model of `main` (main.go lines 25-33): a non-nil error from `run` is
printed and the process exits with status 1; otherwise it exits 0. -/
def mainExitCode (runResult : Option String) : Nat :=
  match runResult with
  | some _ => 1
  | none => 0

/-- What `main` prints to stderr (main.go line 30). -/
def mainStderr (runResult : Option String) : List String :=
  match runResult with
  | some e => [e]
  | none => []

/-- Whether a failure cause appears anywhere in the local diagnostic
log lines of a call. -/
def recordedIn (logs : List String) (cause : String) : Bool :=
  logs.any (fun line => decide (cause.toList <:+: line.toList))

/-! ### Helper lemmas about the filesystem model -/

theorem lookupFile_updateFiles (es : List (Path × Bytes)) (p q : Path) (b : Bytes) :
    lookupFile (updateFiles es p b) q = if q = p then some b else lookupFile es q := by
  induction es with
  | nil =>
    by_cases h : q = p
    · subst h
      simp [updateFiles, lookupFile]
    · simp [updateFiles, lookupFile, h, Ne.symm h]
  | cons e es ih =>
    by_cases h1 : e.1 = p <;> by_cases h2 : q = p <;> by_cases h3 : e.1 = q <;>
      simp_all [updateFiles, lookupFile]

theorem length_updateFiles (es : List (Path × Bytes)) (p : Path) (b : Bytes) :
    (updateFiles es p b).length =
      if (lookupFile es p).isSome then es.length else es.length + 1 := by
  induction es with
  | nil => simp [updateFiles, lookupFile]
  | cons e es ih =>
    by_cases h1 : e.1 = p
    · simp [updateFiles, lookupFile, h1]
    · by_cases h2 : (lookupFile es p).isSome <;>
        simp [updateFiles, lookupFile, h1, h2, ih]

theorem natToDecimal_ne_nil (n : Nat) : natToDecimal n ≠ [] := by
  unfold natToDecimal
  split <;> simp

theorem parseDigit_digitChar {d : Nat} (h : d < 10) :
    parseDigit (digitChar d) = some d := by
  interval_cases d <;> decide

theorem digitChar_ne_minus {d : Nat} (h : d < 10) : digitChar d ≠ '-' := by
  interval_cases d <;> decide

theorem parseDecimalAux_append (a : Nat) (xs ys : List Char) :
    parseDecimalAux a (xs ++ ys) =
      match parseDecimalAux a xs with
      | some a2 => parseDecimalAux a2 ys
      | none => none := by
  induction xs generalizing a with
  | nil => simp [parseDecimalAux]
  | cons c cs ih =>
    simp only [List.cons_append, parseDecimalAux]
    cases hp : parseDigit c with
    | some d => simp [ih]
    | none => simp

theorem parseDecimalAux_natToDecimal (n : Nat) :
    ∀ a, parseDecimalAux a (natToDecimal n) =
      some (a * 10 ^ (natToDecimal n).length + n) := by
  induction n using Nat.strong_induction_on with
  | _ n ih =>
    intro a
    unfold natToDecimal
    split
    case isTrue h =>
      simp [parseDecimalAux, parseDigit_digitChar h]
    case isFalse h =>
      rw [parseDecimalAux_append]
      rw [ih (n / 10) (Nat.div_lt_self (by omega) (by omega))]
      simp only [parseDecimalAux, parseDigit_digitChar (Nat.mod_lt n (by omega))]
      simp only [List.length_append, List.length_cons, List.length_nil]
      congr 1
      rw [pow_succ]
      have hm : a * (10 ^ (natToDecimal (n / 10)).length * 10) =
          a * 10 ^ (natToDecimal (n / 10)).length * 10 := by ring
      rw [hm]
      generalize a * 10 ^ (natToDecimal (n / 10)).length = m
      omega

theorem natToDecimal_head (n : Nat) :
    ∃ d ds, d < 10 ∧ natToDecimal n = digitChar d :: ds := by
  induction n using Nat.strong_induction_on with
  | _ n ih =>
    unfold natToDecimal
    split
    case isTrue h => exact ⟨n, [], h, rfl⟩
    case isFalse h =>
      obtain ⟨d, ds, hd, heq⟩ := ih (n / 10) (Nat.div_lt_self (by omega) (by omega))
      exact ⟨d, ds ++ [digitChar (n % 10)], hd, by rw [heq]; rfl⟩

theorem parseDecimal_mk_cons (c : Char) (cs : List Char) :
    parseDecimal (String.mk (c :: cs)) =
      if c = '-' then
        if cs.isEmpty then none
        else (parseDecimalAux 0 cs).map (fun m => -(Int.ofNat m))
      else (parseDecimalAux 0 (c :: cs)).map (fun m => Int.ofNat m) := rfl

theorem parseDecimal_formatInt (v : Int) : parseDecimal (formatInt v) = some v := by
  unfold formatInt
  split
  case isTrue h =>
    have hne := natToDecimal_ne_nil (-v).toNat
    rw [parseDecimal_mk_cons, if_pos rfl,
      if_neg (by simpa using hne),
      parseDecimalAux_natToDecimal (-v).toNat 0]
    simp only [Option.map_some', zero_mul, zero_add, Int.ofNat_eq_natCast]
    congr 1
    omega
  case isFalse h =>
    obtain ⟨d, ds, hd, heq⟩ := natToDecimal_head v.toNat
    rw [heq, parseDecimal_mk_cons, if_neg (digitChar_ne_minus hd), ← heq,
      parseDecimalAux_natToDecimal v.toNat 0]
    simp only [Option.map_some', zero_mul, zero_add, Int.ofNat_eq_natCast]
    congr 1
    omega

theorem formatInt_injective {v1 v2 : Int} (h : formatInt v1 = formatInt v2) :
    v1 = v2 := by
  have h1 := parseDecimal_formatInt v1
  rw [h, parseDecimal_formatInt v2] at h1
  exact (Option.some.inj h1).symm

theorem mkdirAll_ok_files {fs fs1 : FS} {fl : Faults} {d : Path}
    (h : fs.mkdirAll fl d = .ok fs1) : fs1.files = fs.files := by
  unfold FS.mkdirAll at h
  split at h
  · exact absurd h (by simp)
  · split at h
    · exact absurd h (by simp)
    · cases h
      rfl

theorem mkdirAll_ok_dirs {fs fs1 : FS} {fl : Faults} {d : Path}
    (h : fs.mkdirAll fl d = .ok fs1) :
    fs1.dirs = fs.dirs ++ (pathPrefixes d).filter (fun q => decide (q ∉ fs.dirs)) := by
  unfold FS.mkdirAll at h
  split at h
  · exact absurd h (by simp)
  · split at h
    · exact absurd h (by simp)
    · cases h
      rfl

theorem mkdirAll_ok_mem_dirs {fs fs1 : FS} {fl : Faults} {d : Path}
    (h : fs.mkdirAll fl d = .ok fs1) (q : Path) :
    q ∈ fs1.dirs ↔ q ∈ fs.dirs ∨ q ∈ pathPrefixes d := by
  rw [mkdirAll_ok_dirs h]
  simp [List.mem_filter]
  constructor
  · rintro (h1 | ⟨h1, _⟩)
    · exact Or.inl h1
    · exact Or.inr h1
  · rintro (h1 | h1)
    · exact Or.inl h1
    · by_cases h2 : q ∈ fs.dirs
      · exact Or.inl h2
      · exact Or.inr ⟨h1, h2⟩

theorem writeFile_ok {fs fs2 : FS} {fl : Faults} {p : Path} {b : Bytes}
    (h : fs.writeFile fl p b = .ok fs2) :
    fs2.dirs = fs.dirs ∧ fs2.files = updateFiles fs.files p b := by
  unfold FS.writeFile at h
  split at h
  · exact absurd h (by simp)
  · split at h
    · exact absurd h (by simp)
    · split at h
      · exact absurd h (by simp)
      · cases h
        exact ⟨rfl, rfl⟩

theorem SinkExport_eq {μ : Type} (marshal : μ → Except String Bytes) (s : Sink)
    (ctx : Ctx) (fl : Faults) (fs : FS) (stream : String) (msg : μ) (now : Int) :
    Sink.Export marshal s ctx fl fs stream msg now =
      match fs.mkdirAll fl [s.dir, stream] with
      | .error e =>
        (fs, .error ("failed to create directory " ++ pathString [s.dir, stream] ++ ": " ++ e))
      | .ok fs1 =>
        match marshal msg with
        | .error e => (fs1, .error ("failed to serialize message: " ++ e))
        | .ok b =>
          match fs1.writeFile fl [s.dir, stream, formatInt now] b with
          | .error e =>
            (fs1, .error ("failed to write file " ++ pathString [s.dir, stream, formatInt now] ++ ": " ++ e))
          | .ok fs3 => (fs3, .ok ()) := rfl

theorem SinkExport_ok_cases {μ : Type} {marshal : μ → Except String Bytes}
    {s : Sink} {ctx : Ctx} {fl : Faults} {fs fs2 : FS} {stream : String}
    {msg : μ} {now : Int}
    (hok : Sink.Export marshal s ctx fl fs stream msg now = (fs2, .ok ())) :
    ∃ fs1 b, fs.mkdirAll fl [s.dir, stream] = .ok fs1 ∧ marshal msg = .ok b ∧
      fs1.writeFile fl [s.dir, stream, formatInt now] b = .ok fs2 := by
  rw [SinkExport_eq] at hok
  cases h1 : fs.mkdirAll fl [s.dir, stream] with
  | error e => simp [h1] at hok
  | ok fs1 =>
    cases h2 : marshal msg with
    | error e => simp [h1, h2] at hok
    | ok b =>
      cases h3 : fs1.writeFile fl [s.dir, stream, formatInt now] b with
      | error e => simp [h1, h2, h3] at hok
      | ok fs3 =>
        simp [h1, h2, h3] at hok
        exact ⟨fs1, b, rfl, rfl, hok ▸ h3⟩

/-! ### The claims -/

/-- C1: for each of the three signal types (traces, metrics, logs), the
export operation returns the empty success envelope of that signal type
exactly when the persistence sink's write succeeds, and fails with an
Internal-category error exactly when persistence fails for any reason. -/
theorem c1_success_envelope_iff_persistence {μ : Type}
    (marshal : μ → Except String Bytes) (format : μ → String)
    (ts : traceServer) (ms : metricsServer) (ls : logsServer)
    (ctx : Ctx) (fl : Faults) (fs : FS) (req : μ) (now : Int) :
    ((traceServer.Export marshal format ts ctx fl fs req now).resp = .ok {} ↔
      (Sink.Export marshal ts.sink ctx fl fs "traces" req now).2 = .ok ()) ∧
    ((traceServer.Export marshal format ts ctx fl fs req now).resp =
        .error { code := .internal, message := "error writing data" } ↔
      (Sink.Export marshal ts.sink ctx fl fs "traces" req now).2 ≠ .ok ()) ∧
    ((metricsServer.Export marshal format ms ctx fl fs req now).resp = .ok {} ↔
      (Sink.Export marshal ms.sink ctx fl fs "metrics" req now).2 = .ok ()) ∧
    ((metricsServer.Export marshal format ms ctx fl fs req now).resp =
        .error { code := .internal, message := "error writing data" } ↔
      (Sink.Export marshal ms.sink ctx fl fs "metrics" req now).2 ≠ .ok ()) ∧
    ((logsServer.Export marshal format ls ctx fl fs req now).resp = .ok {} ↔
      (Sink.Export marshal ls.sink ctx fl fs "logs" req now).2 = .ok ()) ∧
    ((logsServer.Export marshal format ls ctx fl fs req now).resp =
        .error { code := .internal, message := "error writing data" } ↔
      (Sink.Export marshal ls.sink ctx fl fs "logs" req now).2 ≠ .ok ()) := by
  refine ⟨?_, ?_, ?_, ?_, ?_, ?_⟩
  · cases h : Sink.Export marshal ts.sink ctx fl fs "traces" req now with
    | mk fs2 r => cases r <;> simp [traceServer.Export, h]
  · cases h : Sink.Export marshal ts.sink ctx fl fs "traces" req now with
    | mk fs2 r => cases r <;> simp [traceServer.Export, h]
  · cases h : Sink.Export marshal ms.sink ctx fl fs "metrics" req now with
    | mk fs2 r => cases r <;> simp [metricsServer.Export, h]
  · cases h : Sink.Export marshal ms.sink ctx fl fs "metrics" req now with
    | mk fs2 r => cases r <;> simp [metricsServer.Export, h]
  · cases h : Sink.Export marshal ls.sink ctx fl fs "logs" req now with
    | mk fs2 r => cases r <;> simp [logsServer.Export, h]
  · cases h : Sink.Export marshal ls.sink ctx fl fs "logs" req now with
    | mk fs2 r => cases r <;> simp [logsServer.Export, h]

/-- Counterexample to C2 as stated: a successful export whose
timestamp-derived name collides with an existing entry creates no new
file — the call succeeds yet the file count is unchanged (the existing
contents are replaced), so "every successful call creates exactly one
new file" is false. -/
theorem c2_counterexample :
    (Sink.Export (fun _ : Unit => .ok [9]) { dir := "data" } { err := none }
      noFaults { dirs := [["data"], ["data", "traces"]],
                 files := [(["data", "traces", "5"], [7])] } "traces" () 5).2 = .ok () ∧
    ((Sink.Export (fun _ : Unit => .ok [9]) { dir := "data" } { err := none }
      noFaults { dirs := [["data"], ["data", "traces"]],
                 files := [(["data", "traces", "5"], [7])] } "traces" () 5).1).files.length =
      ([(["data", "traces", "5"], [7])] : List (Path × Bytes)).length := by
  simp [Sink.Export, FS.mkdirAll, FS.writeFile, FS.isFile, FS.isDir,
    pathPrefixes, lookupFile, updateFiles, noFaults, formatInt, natToDecimal,
    digitChar]

/-- C2 (amended): for every successful export whose destination name
does not collide with an existing file, exactly one new file appears
under the stream directory, its contents are exactly the serializer's
output bytes (nothing added), no other file changes, and deserializing
those bytes yields the original message, given that the codec is
round-tripping (as the protobuf codec is). -/
theorem c2_roundtrip_one_new_file {μ : Type}
    (marshal : μ → Except String Bytes) (unmarshal : Bytes → Option μ)
    (hcodec : ∀ m bb, marshal m = .ok bb → unmarshal bb = some m)
    (s : Sink) (ctx : Ctx) (fl : Faults) (fs fs2 : FS) (stream : String)
    (msg : μ) (now : Int) (b : Bytes)
    (hm : marshal msg = .ok b)
    (hok : Sink.Export marshal s ctx fl fs stream msg now = (fs2, .ok ()))
    (hfresh : lookupFile fs.files [s.dir, stream, formatInt now] = none) :
    lookupFile fs2.files [s.dir, stream, formatInt now] = some b ∧
    fs2.files.length = fs.files.length + 1 ∧
    (∀ q, q ≠ [s.dir, stream, formatInt now] →
      lookupFile fs2.files q = lookupFile fs.files q) ∧
    unmarshal b = some msg := by
  obtain ⟨fs1, b2, h1, h2, h3⟩ := SinkExport_ok_cases hok
  obtain rfl : b = b2 := Except.ok.inj (hm.symm.trans h2)
  obtain ⟨hd, hf⟩ := writeFile_ok h3
  have hfiles1 := mkdirAll_ok_files h1
  refine ⟨?_, ?_, ?_, hcodec msg b hm⟩
  · rw [hf, lookupFile_updateFiles]
    simp
  · rw [hf, length_updateFiles, hfiles1, hfresh]
    simp
  · intro q hq
    rw [hf, lookupFile_updateFiles, if_neg hq, hfiles1]

/-- Witness for C2: a concrete fresh export adds exactly one file whose
contents are the marshalled bytes. -/
theorem c2_witness :
    ([(["data", "traces", "5"], [7])] : List (Path × Bytes)).length =
      ([] : List (Path × Bytes)).length + 1 ∧
    lookupFile [(["data", "traces", "5"], [7])] ["data", "traces", formatInt 5] =
      some [7] := by
  have h := c2_roundtrip_one_new_file (fun _ : Unit => .ok [7]) (fun _ => some ())
    (fun m bb _ => rfl) { dir := "data" } { err := none } noFaults
    { dirs := [], files := [] }
    { dirs := [["data"], ["data", "traces"]], files := [(["data", "traces", "5"], [7])] }
    "traces" () 5 [7] rfl
    (by simp [Sink.Export, FS.mkdirAll, FS.writeFile, FS.isFile, FS.isDir,
      pathPrefixes, lookupFile, updateFiles, noFaults, formatInt, natToDecimal,
      digitChar])
    rfl
  exact ⟨h.2.1, h.1⟩

/-- Witness for C1: the equivalence evaluated at one concrete
successful trace export. -/
theorem c1_witness :
    ((traceServer.Export (fun _ : Unit => .ok [7]) (fun _ => "[req]")
        { sink := { dir := "data" } } { err := none } noFaults
        { dirs := [], files := [] } () 5).resp = .ok {} ↔
      (Sink.Export (fun _ : Unit => .ok [7]) { dir := "data" }
        { err := none } noFaults { dirs := [], files := [] } "traces" () 5).2 = .ok ()) :=
  (c1_success_envelope_iff_persistence (fun _ : Unit => .ok [7]) (fun _ => "[req]")
    { sink := { dir := "data" } } { sink := { dir := "data" } }
    { sink := { dir := "data" } } { err := none } noFaults
    { dirs := [], files := [] } () 5).1

/-- C3: for every successful sink Export with stream `stream`, the one
path written is exactly `<root>/<stream>/<n>` (no other file changes),
where `<root>` is the configured storage root and `<n>` is the receipt
time in nanoseconds rendered as a base-10 decimal integer string, as
certified by reading the rendered name back to the timestamp. -/
theorem c3_destination_path {μ : Type} (marshal : μ → Except String Bytes)
    (s : Sink) (ctx : Ctx) (fl : Faults) (fs fs2 : FS) (stream : String)
    (msg : μ) (now : Int) (b : Bytes)
    (hm : marshal msg = .ok b)
    (hok : Sink.Export marshal s ctx fl fs stream msg now = (fs2, .ok ())) :
    lookupFile fs2.files [s.dir, stream, formatInt now] = some b ∧
    (∀ q, q ≠ [s.dir, stream, formatInt now] →
      lookupFile fs2.files q = lookupFile fs.files q) ∧
    pathString [s.dir, stream, formatInt now] =
      s.dir ++ "/" ++ stream ++ "/" ++ formatInt now ∧
    parseDecimal (formatInt now) = some now := by
  obtain ⟨fs1, b2, h1, h2, h3⟩ := SinkExport_ok_cases hok
  obtain rfl : b = b2 := Except.ok.inj (hm.symm.trans h2)
  obtain ⟨hd, hf⟩ := writeFile_ok h3
  have hfiles1 := mkdirAll_ok_files h1
  refine ⟨?_, ?_, ?_, parseDecimal_formatInt now⟩
  · rw [hf, lookupFile_updateFiles]
    simp
  · intro q hq
    rw [hf, lookupFile_updateFiles, if_neg hq, hfiles1]
  · simp [pathString, String.intercalate, String.intercalate.go, String.append_assoc]

/-- Witness for C3: a concrete successful export at timestamp 5 writes
the file at `data/traces/5`, and the name parses back to 5. -/
theorem c3_witness :
    lookupFile [(["data", "traces", "5"], [7])] ["data", "traces", formatInt 5] = some [7] ∧
    parseDecimal (formatInt 5) = some 5 := by
  have h := c3_destination_path (fun _ : Unit => .ok [7]) { dir := "data" }
    { err := none } noFaults { dirs := [], files := [] }
    { dirs := [["data"], ["data", "traces"]], files := [(["data", "traces", "5"], [7])] }
    "traces" () 5 [7] rfl
    (by simp [Sink.Export, FS.mkdirAll, FS.writeFile, FS.isFile, FS.isDir,
      pathPrefixes, lookupFile, updateFiles, noFaults, formatInt, natToDecimal,
      digitChar])
  exact ⟨h.1, h.2.2.2⟩

/-- Counterexample to C4 as stated: at a concrete persistence failure
the caller indeed sees only the generic Internal failure, but the
underlying cause is NOT recorded in local diagnostics — the call's only
log line is the pre-storage request log, and the cause string appears
nowhere in it; the code discards the error. -/
theorem c4_counterexample :
    (Sink.Export (fun _ : Unit => .ok [7]) { dir := "data" } { err := none }
        { mkdirFault := fun _ => true, writeFault := fun _ => false }
        { dirs := [], files := [] } "traces" () 5).2 =
      .error "failed to create directory data/traces: mkdir fault" ∧
    (traceServer.Export (fun _ : Unit => .ok [7]) (fun _ => "[request]")
        { sink := { dir := "data" } } { err := none }
        { mkdirFault := fun _ => true, writeFault := fun _ => false }
        { dirs := [], files := [] } () 5).resp =
      .error { code := .internal, message := "error writing data" } ∧
    (traceServer.Export (fun _ : Unit => .ok [7]) (fun _ => "[request]")
        { sink := { dir := "data" } } { err := none }
        { mkdirFault := fun _ => true, writeFault := fun _ => false }
        { dirs := [], files := [] } () 5).logs = ["trace.Export [request]"] ∧
    recordedIn (traceServer.Export (fun _ : Unit => .ok [7]) (fun _ => "[request]")
        { sink := { dir := "data" } } { err := none }
        { mkdirFault := fun _ => true, writeFault := fun _ => false }
        { dirs := [], files := [] } () 5).logs
      "failed to create directory data/traces: mkdir fault" = false := by
  refine ⟨rfl, rfl, rfl, ?_⟩
  decide

/-- C4 (amended): on persistence failure each of the three operations
answers only the constant generic Internal failure, so the underlying
cause is never echoed to the caller; but the cause is not recorded in
local diagnostics either — the call's only diagnostic output is the
single pre-storage informational request line, computed from the
request alone, and the persistence error is discarded. -/
theorem c4_cause_not_echoed_and_discarded {μ : Type}
    (marshal : μ → Except String Bytes) (format : μ → String)
    (ts : traceServer) (ms : metricsServer) (ls : logsServer)
    (ctx : Ctx) (fl : Faults) (fs : FS) (req : μ) (now : Int) :
    ((Sink.Export marshal ts.sink ctx fl fs "traces" req now).2 ≠ .ok () →
      (traceServer.Export marshal format ts ctx fl fs req now).resp =
        .error { code := .internal, message := "error writing data" }) ∧
    (traceServer.Export marshal format ts ctx fl fs req now).logs =
      ["trace.Export " ++ format req] ∧
    ((Sink.Export marshal ms.sink ctx fl fs "metrics" req now).2 ≠ .ok () →
      (metricsServer.Export marshal format ms ctx fl fs req now).resp =
        .error { code := .internal, message := "error writing data" }) ∧
    (metricsServer.Export marshal format ms ctx fl fs req now).logs =
      ["metrics.Export " ++ format req] ∧
    ((Sink.Export marshal ls.sink ctx fl fs "logs" req now).2 ≠ .ok () →
      (logsServer.Export marshal format ls ctx fl fs req now).resp =
        .error { code := .internal, message := "error writing data" }) ∧
    (logsServer.Export marshal format ls ctx fl fs req now).logs =
      ["logs.Export " ++ format req] := by
  refine ⟨?_, ?_, ?_, ?_, ?_, ?_⟩
  · intro hne
    cases h : Sink.Export marshal ts.sink ctx fl fs "traces" req now with
    | mk fs2 r =>
      cases r with
      | error e => simp [traceServer.Export, h]
      | ok u => exact absurd rfl (h ▸ hne)
  · cases h : Sink.Export marshal ts.sink ctx fl fs "traces" req now with
    | mk fs2 r => cases r <;> simp [traceServer.Export, h]
  · intro hne
    cases h : Sink.Export marshal ms.sink ctx fl fs "metrics" req now with
    | mk fs2 r =>
      cases r with
      | error e => simp [metricsServer.Export, h]
      | ok u => exact absurd rfl (h ▸ hne)
  · cases h : Sink.Export marshal ms.sink ctx fl fs "metrics" req now with
    | mk fs2 r => cases r <;> simp [metricsServer.Export, h]
  · intro hne
    cases h : Sink.Export marshal ls.sink ctx fl fs "logs" req now with
    | mk fs2 r =>
      cases r with
      | error e => simp [logsServer.Export, h]
      | ok u => exact absurd rfl (h ▸ hne)
  · cases h : Sink.Export marshal ls.sink ctx fl fs "logs" req now with
    | mk fs2 r => cases r <;> simp [logsServer.Export, h]

/-- Witness for C4 (amended form): a concrete failing trace export
answers the generic Internal error and logs exactly the request line. -/
theorem c4_witness :
    (traceServer.Export (fun _ : Unit => .ok [7]) (fun _ => "[req]")
        { sink := { dir := "data" } } { err := none }
        { mkdirFault := fun _ => true, writeFault := fun _ => false }
        { dirs := [], files := [] } () 5).resp =
      .error { code := .internal, message := "error writing data" } ∧
    (traceServer.Export (fun _ : Unit => .ok [7]) (fun _ => "[req]")
        { sink := { dir := "data" } } { err := none }
        { mkdirFault := fun _ => true, writeFault := fun _ => false }
        { dirs := [], files := [] } () 5).logs = ["trace.Export " ++ "[req]"] := by
  have h := c4_cause_not_echoed_and_discarded (fun _ : Unit => .ok [7])
    (fun _ => "[req]") { sink := { dir := "data" } } { sink := { dir := "data" } }
    { sink := { dir := "data" } } { err := none }
    { mkdirFault := fun _ => true, writeFault := fun _ => false }
    { dirs := [], files := [] } () 5
  exact ⟨h.1 (fun hcontra => Except.noConfusion hcontra), h.2.1⟩

/-- C5: two successful sink exports to the same stream: when the receipt
timestamps differ (even by one nanosecond) the destinations are two
distinct files and both survive with their own contents; when the
timestamps coincide at nanosecond granularity the second call writes
the same path, silently replacing the first contents with no new file
(last-writer-wins). -/
theorem c5_collision_semantics {μ : Type}
    (marshal : μ → Except String Bytes) (s : Sink) (ctx : Ctx) (fl : Faults)
    (fs fsA fsB : FS) (stream : String) (msg1 msg2 : μ) (now1 now2 : Int)
    (b1 b2 : Bytes)
    (hm1 : marshal msg1 = .ok b1) (hm2 : marshal msg2 = .ok b2)
    (h1 : Sink.Export marshal s ctx fl fs stream msg1 now1 = (fsA, .ok ()))
    (h2 : Sink.Export marshal s ctx fl fsA stream msg2 now2 = (fsB, .ok ())) :
    (now1 ≠ now2 →
      [s.dir, stream, formatInt now1] ≠ [s.dir, stream, formatInt now2] ∧
      lookupFile fsB.files [s.dir, stream, formatInt now1] = some b1 ∧
      lookupFile fsB.files [s.dir, stream, formatInt now2] = some b2) ∧
    (now1 = now2 →
      lookupFile fsB.files [s.dir, stream, formatInt now1] = some b2 ∧
      fsB.files.length = fsA.files.length) := by
  obtain ⟨fsM1, b1x, g1, g2, g3⟩ := SinkExport_ok_cases h1
  obtain rfl : b1 = b1x := Except.ok.inj (hm1.symm.trans g2)
  obtain ⟨_, hfA⟩ := writeFile_ok g3
  have hfsM1 := mkdirAll_ok_files g1
  obtain ⟨fsM2, b2x, k1, k2, k3⟩ := SinkExport_ok_cases h2
  obtain rfl : b2 = b2x := Except.ok.inj (hm2.symm.trans k2)
  obtain ⟨_, hfB⟩ := writeFile_ok k3
  have hfsM2 := mkdirAll_ok_files k1
  constructor
  · intro hne
    have hpne : [s.dir, stream, formatInt now1] ≠ [s.dir, stream, formatInt now2] := by
      intro hcontra
      exact hne (formatInt_injective (by simpa using hcontra))
    refine ⟨hpne, ?_, ?_⟩
    · rw [hfB, lookupFile_updateFiles, if_neg hpne, hfsM2, hfA,
        lookupFile_updateFiles]
      simp
    · rw [hfB, lookupFile_updateFiles]
      simp
  · intro heq
    subst heq
    refine ⟨?_, ?_⟩
    · rw [hfB, lookupFile_updateFiles]
      simp
    · rw [hfB, length_updateFiles, hfsM2, hfA, lookupFile_updateFiles]
      simp

/-- Witness for C5: concrete exports at nanosecond timestamps 5 and 12
leave two distinct files, each with its own contents. -/
theorem c5_witness :
    (5 : Int) ≠ 12 ∧
    lookupFile [(["data", "traces", "5"], [7]), (["data", "traces", "12"], [9])]
      ["data", "traces", formatInt 5] = some [7] ∧
    lookupFile [(["data", "traces", "5"], [7]), (["data", "traces", "12"], [9])]
      ["data", "traces", formatInt 12] = some [9] := by
  have h := c5_collision_semantics Except.ok { dir := "data" } { err := none }
    noFaults { dirs := [], files := [] }
    { dirs := [["data"], ["data", "traces"]], files := [(["data", "traces", "5"], [7])] }
    { dirs := [["data"], ["data", "traces"]],
      files := [(["data", "traces", "5"], [7]), (["data", "traces", "12"], [9])] }
    "traces" [7] [9] 5 12 [7] [9] rfl rfl
    (by simp [Sink.Export, FS.mkdirAll, FS.writeFile, FS.isFile, FS.isDir,
      pathPrefixes, lookupFile, updateFiles, noFaults, formatInt, natToDecimal,
      digitChar])
    (by simp [Sink.Export, FS.mkdirAll, FS.writeFile, FS.isFile, FS.isDir,
      pathPrefixes, lookupFile, updateFiles, noFaults, formatInt, natToDecimal,
      digitChar])
  exact ⟨by decide, (h.1 (by decide)).2.1, (h.1 (by decide)).2.2⟩

/-- C6: starting from a filesystem where the storage root does not yet
exist, a first export call for any stream succeeds and creates exactly
the directory chain `<root>`, `<root>/<stream>`, and a second call for
the same stream succeeds while creating no directory at all. -/
theorem c6_lazy_directory_creation {μ : Type}
    (marshal : μ → Except String Bytes) (s : Sink) (ctx : Ctx)
    (stream : String) (msg1 msg2 : μ) (now1 now2 : Int) (b1 b2 : Bytes)
    (fs1 fs2 : FS) (r1 r2 : Except String Unit)
    (hm1 : marshal msg1 = .ok b1) (hm2 : marshal msg2 = .ok b2)
    (h1 : Sink.Export marshal s ctx noFaults { dirs := [], files := [] }
      stream msg1 now1 = (fs1, r1))
    (h2 : Sink.Export marshal s ctx noFaults fs1 stream msg2 now2 = (fs2, r2)) :
    r1 = .ok () ∧ fs1.dirs = [[s.dir], [s.dir, stream]] ∧
    r2 = .ok () ∧ fs2.dirs = fs1.dirs := by
  rw [SinkExport_eq] at h1
  have e1 : FS.mkdirAll { dirs := [], files := [] } noFaults [s.dir, stream] =
      .ok { dirs := [[s.dir], [s.dir, stream]], files := [] } := by
    simp [FS.mkdirAll, FS.isFile, pathPrefixes, lookupFile, noFaults]
  simp only [e1, hm1] at h1
  have e2 : FS.writeFile { dirs := [[s.dir], [s.dir, stream]], files := [] }
      noFaults [s.dir, stream, formatInt now1] b1 =
      .ok { dirs := [[s.dir], [s.dir, stream]],
            files := [([s.dir, stream, formatInt now1], b1)] } := by
    simp [FS.writeFile, FS.isDir, updateFiles, noFaults]
  simp only [e2] at h1
  injection h1 with hA hB
  subst hA
  subst hB
  rw [SinkExport_eq] at h2
  have e3 : FS.mkdirAll
      { dirs := [[s.dir], [s.dir, stream]],
        files := [([s.dir, stream, formatInt now1], b1)] }
      noFaults [s.dir, stream] =
      .ok { dirs := [[s.dir], [s.dir, stream]],
            files := [([s.dir, stream, formatInt now1], b1)] } := by
    simp [FS.mkdirAll, FS.isFile, pathPrefixes, lookupFile, noFaults]
  simp only [e3, hm2] at h2
  have e4 : FS.writeFile
      { dirs := [[s.dir], [s.dir, stream]],
        files := [([s.dir, stream, formatInt now1], b1)] }
      noFaults [s.dir, stream, formatInt now2] b2 =
      .ok { dirs := [[s.dir], [s.dir, stream]],
            files := updateFiles [([s.dir, stream, formatInt now1], b1)]
              [s.dir, stream, formatInt now2] b2 } := by
    simp [FS.writeFile, FS.isDir, noFaults]
  simp only [e4] at h2
  injection h2 with hC hD
  subst hC
  subst hD
  exact ⟨rfl, rfl, rfl, rfl⟩

/-- Witness for C6: a concrete pair of exports from an empty filesystem
succeeds twice, creating `data` and `data/traces` once and nothing on
the second call. -/
theorem c6_witness :
    (Sink.Export Except.ok { dir := "data" } { err := none } noFaults
        { dirs := [], files := [] } "traces" [7] 5).2 = .ok () ∧
    ((Sink.Export Except.ok { dir := "data" } { err := none } noFaults
        { dirs := [], files := [] } "traces" [7] 5).1).dirs =
      [["data"], ["data", "traces"]] ∧
    (Sink.Export Except.ok { dir := "data" } { err := none } noFaults
        (Sink.Export Except.ok { dir := "data" } { err := none } noFaults
          { dirs := [], files := [] } "traces" [7] 5).1 "traces" [9] 6).2 = .ok () ∧
    ((Sink.Export Except.ok { dir := "data" } { err := none } noFaults
        (Sink.Export Except.ok { dir := "data" } { err := none } noFaults
          { dirs := [], files := [] } "traces" [7] 5).1 "traces" [9] 6).1).dirs =
      ((Sink.Export Except.ok { dir := "data" } { err := none } noFaults
        { dirs := [], files := [] } "traces" [7] 5).1).dirs :=
  c6_lazy_directory_creation Except.ok { dir := "data" } { err := none }
    "traces" [7] [9] 5 6 [7] [9] _ _ _ _ rfl rfl rfl rfl

/-- C7: directory-creation failure, serialization failure, and write
failure are three distinct error cases of the sink Export (their error
texts can never coincide), and each aborts the operation with no
partial side effects beyond directories already created before the
failure: on directory failure the filesystem is untouched, and on
serialization or write failure no file is written (only the already
created directories remain). -/
theorem c7_three_distinct_failures {μ : Type}
    (marshal : μ → Except String Bytes) (s : Sink) (ctx : Ctx) (fl : Faults)
    (fs : FS) (stream : String) (msg : μ) (now : Int) :
    (∀ e, fs.mkdirAll fl [s.dir, stream] = .error e →
      Sink.Export marshal s ctx fl fs stream msg now =
        (fs, .error ("failed to create directory " ++ pathString [s.dir, stream] ++ ": " ++ e))) ∧
    (∀ fs1 e, fs.mkdirAll fl [s.dir, stream] = .ok fs1 → marshal msg = .error e →
      Sink.Export marshal s ctx fl fs stream msg now =
        (fs1, .error ("failed to serialize message: " ++ e)) ∧
      fs1.files = fs.files) ∧
    (∀ fs1 b e, fs.mkdirAll fl [s.dir, stream] = .ok fs1 → marshal msg = .ok b →
      fs1.writeFile fl [s.dir, stream, formatInt now] b = .error e →
      Sink.Export marshal s ctx fl fs stream msg now =
        (fs1, .error ("failed to write file " ++ pathString [s.dir, stream, formatInt now] ++ ": " ++ e)) ∧
      fs1.files = fs.files) ∧
    (∀ x y e1 e2,
      ("failed to create directory " ++ x ++ ": " ++ e1) ≠
        ("failed to serialize message: " ++ e2) ∧
      ("failed to create directory " ++ x ++ ": " ++ e1) ≠
        ("failed to write file " ++ y ++ ": " ++ e2) ∧
      ("failed to serialize message: " ++ e1) ≠
        ("failed to write file " ++ y ++ ": " ++ e2)) := by
  refine ⟨?_, ?_, ?_, ?_⟩
  · intro e he
    simp only [SinkExport_eq, he]
  · intro fs1 e hok he
    refine ⟨?_, mkdirAll_ok_files hok⟩
    simp only [SinkExport_eq, hok, he]
  · intro fs1 b e hok hm hw
    refine ⟨?_, mkdirAll_ok_files hok⟩
    simp only [SinkExport_eq, hok, hm, hw]
  · intro x y e1 e2
    refine ⟨?_, ?_, ?_⟩ <;>
    · intro h
      have hd := congrArg String.data h
      simp only [String.data_append, List.append_assoc] at hd
      have h10 := congrArg (fun l => l[10]?) hd
      simp only [List.getElem?_append] at h10
      simp at h10

/-- Witness for C7: a concrete injected directory-creation fault makes
the sink abort with the directory error and an untouched filesystem,
and that error text differs from the serialization-failure family. -/
theorem c7_witness :
    Sink.Export (fun _ : Unit => .ok [7]) { dir := "data" } { err := none }
      { mkdirFault := fun _ => true, writeFault := fun _ => false }
      { dirs := [], files := [] } "traces" () 5 =
      ({ dirs := [], files := [] },
        .error ("failed to create directory " ++ pathString ["data", "traces"] ++ ": " ++ "mkdir fault")) ∧
    ("failed to create directory " ++ "data/traces" ++ ": " ++ "mkdir fault") ≠
      ("failed to serialize message: " ++ "mkdir fault") := by
  have h := c7_three_distinct_failures (fun _ : Unit => .ok [7]) { dir := "data" }
    { err := none } { mkdirFault := fun _ => true, writeFault := fun _ => false }
    { dirs := [], files := [] } "traces" () 5
  exact ⟨h.1 "mkdir fault" rfl,
    (h.2.2.2 "data/traces" "unused" "mkdir fault" "mkdir fault").1⟩

theorem SinkExport_changed_file {μ : Type} (marshal : μ → Except String Bytes)
    (s : Sink) (ctx : Ctx) (fl : Faults) (fs : FS) (stream : String) (msg : μ)
    (now : Int) (q : Path)
    (hne : lookupFile ((Sink.Export marshal s ctx fl fs stream msg now).1).files q ≠
      lookupFile fs.files q) :
    q = [s.dir, stream, formatInt now] := by
  rw [SinkExport_eq] at hne
  cases h1 : fs.mkdirAll fl [s.dir, stream] with
  | error e =>
    simp only [h1] at hne
    exact absurd rfl hne
  | ok fs1 =>
    simp only [h1] at hne
    have hf1 := mkdirAll_ok_files h1
    cases h2 : marshal msg with
    | error e =>
      simp only [h2] at hne
      rw [hf1] at hne
      exact absurd rfl hne
    | ok b =>
      simp only [h2] at hne
      cases h3 : fs1.writeFile fl [s.dir, stream, formatInt now] b with
      | error e =>
        simp only [h3] at hne
        rw [hf1] at hne
        exact absurd rfl hne
      | ok fs3 =>
        simp only [h3] at hne
        obtain ⟨_, hw⟩ := writeFile_ok h3
        rw [hw, lookupFile_updateFiles] at hne
        by_cases hq : q = [s.dir, stream, formatInt now]
        · exact hq
        · rw [if_neg hq, hf1] at hne
          exact absurd rfl hne

theorem SinkExport_other_stream_dirs {μ : Type} (marshal : μ → Except String Bytes)
    (s : Sink) (ctx : Ctx) (fl : Faults) (fs : FS) (stream : String) (msg : μ)
    (now : Int) (other : String) (rest : List String) (hother : other ≠ stream) :
    (([s.dir, other] ++ rest) ∈ ((Sink.Export marshal s ctx fl fs stream msg now).1).dirs ↔
      ([s.dir, other] ++ rest) ∈ fs.dirs) := by
  rcases hE : Sink.Export marshal s ctx fl fs stream msg now with ⟨fsr, r⟩
  rw [SinkExport_eq] at hE
  cases h1 : fs.mkdirAll fl [s.dir, stream] with
  | error e =>
    simp only [h1] at hE
    injection hE with hA hB
    subst hA
    simp
  | ok fs1 =>
    have hmem := mkdirAll_ok_mem_dirs h1 ([s.dir, other] ++ rest)
    have hnotin : ([s.dir, other] ++ rest) ∉ pathPrefixes [s.dir, stream] := by
      simp [pathPrefixes, hother]
    have hiff : ([s.dir, other] ++ rest) ∈ fs1.dirs ↔ ([s.dir, other] ++ rest) ∈ fs.dirs := by
      rw [hmem]
      exact or_iff_left hnotin
    cases h2 : marshal msg with
    | error e =>
      simp only [h1, h2] at hE
      injection hE with hA hB
      subst hA
      simpa using hiff
    | ok b =>
      cases h3 : fs1.writeFile fl [s.dir, stream, formatInt now] b with
      | error e =>
        simp only [h1, h2, h3] at hE
        injection hE with hA hB
        subst hA
        simpa using hiff
      | ok fs3 =>
        simp only [h1, h2, h3] at hE
        injection hE with hA hB
        subst hA
        obtain ⟨hd, _⟩ := writeFile_ok h3
        simpa [hd] using hiff

theorem traceServer_Export_fs {μ : Type} (marshal : μ → Except String Bytes)
    (format : μ → String) (ts : traceServer) (ctx : Ctx) (fl : Faults)
    (fs : FS) (req : μ) (now : Int) :
    (traceServer.Export marshal format ts ctx fl fs req now).fs =
      (Sink.Export marshal ts.sink ctx fl fs "traces" req now).1 := by
  cases h : Sink.Export marshal ts.sink ctx fl fs "traces" req now with
  | mk fs2 r => cases r <;> simp [traceServer.Export, h]

theorem metricsServer_Export_fs {μ : Type} (marshal : μ → Except String Bytes)
    (format : μ → String) (ms : metricsServer) (ctx : Ctx) (fl : Faults)
    (fs : FS) (req : μ) (now : Int) :
    (metricsServer.Export marshal format ms ctx fl fs req now).fs =
      (Sink.Export marshal ms.sink ctx fl fs "metrics" req now).1 := by
  cases h : Sink.Export marshal ms.sink ctx fl fs "metrics" req now with
  | mk fs2 r => cases r <;> simp [metricsServer.Export, h]

theorem logsServer_Export_fs {μ : Type} (marshal : μ → Except String Bytes)
    (format : μ → String) (ls : logsServer) (ctx : Ctx) (fl : Faults)
    (fs : FS) (req : μ) (now : Int) :
    (logsServer.Export marshal format ls ctx fl fs req now).fs =
      (Sink.Export marshal ls.sink ctx fl fs "logs" req now).1 := by
  cases h : Sink.Export marshal ls.sink ctx fl fs "logs" req now with
  | mk fs2 r => cases r <;> simp [logsServer.Export, h]

/-- C8: streams are disjoint: the only file a trace, metrics, or logs
export can change is `<root>/<its own stream>/<n>` for its own constant
stream name, and no operation ever adds or removes a directory or a
file lying under a different stream's directory. -/
theorem c8_stream_isolation {μ : Type} (marshal : μ → Except String Bytes)
    (format : μ → String) (ts : traceServer) (ms : metricsServer)
    (ls : logsServer) (ctx : Ctx) (fl : Faults) (fs : FS) (req : μ) (now : Int) :
    (∀ q, lookupFile ((traceServer.Export marshal format ts ctx fl fs req now).fs).files q ≠
        lookupFile fs.files q → q = [ts.sink.dir, "traces", formatInt now]) ∧
    (∀ other rest, other ≠ "traces" →
      (([ts.sink.dir, other] ++ rest) ∈
          ((traceServer.Export marshal format ts ctx fl fs req now).fs).dirs ↔
        ([ts.sink.dir, other] ++ rest) ∈ fs.dirs)) ∧
    (∀ q, lookupFile ((metricsServer.Export marshal format ms ctx fl fs req now).fs).files q ≠
        lookupFile fs.files q → q = [ms.sink.dir, "metrics", formatInt now]) ∧
    (∀ other rest, other ≠ "metrics" →
      (([ms.sink.dir, other] ++ rest) ∈
          ((metricsServer.Export marshal format ms ctx fl fs req now).fs).dirs ↔
        ([ms.sink.dir, other] ++ rest) ∈ fs.dirs)) ∧
    (∀ q, lookupFile ((logsServer.Export marshal format ls ctx fl fs req now).fs).files q ≠
        lookupFile fs.files q → q = [ls.sink.dir, "logs", formatInt now]) ∧
    (∀ other rest, other ≠ "logs" →
      (([ls.sink.dir, other] ++ rest) ∈
          ((logsServer.Export marshal format ls ctx fl fs req now).fs).dirs ↔
        ([ls.sink.dir, other] ++ rest) ∈ fs.dirs)) := by
  refine ⟨?_, ?_, ?_, ?_, ?_, ?_⟩
  · intro q hne
    rw [traceServer_Export_fs] at hne
    exact SinkExport_changed_file marshal ts.sink ctx fl fs "traces" req now q hne
  · intro other rest hother
    rw [traceServer_Export_fs]
    exact SinkExport_other_stream_dirs marshal ts.sink ctx fl fs "traces" req now
      other rest hother
  · intro q hne
    rw [metricsServer_Export_fs] at hne
    exact SinkExport_changed_file marshal ms.sink ctx fl fs "metrics" req now q hne
  · intro other rest hother
    rw [metricsServer_Export_fs]
    exact SinkExport_other_stream_dirs marshal ms.sink ctx fl fs "metrics" req now
      other rest hother
  · intro q hne
    rw [logsServer_Export_fs] at hne
    exact SinkExport_changed_file marshal ls.sink ctx fl fs "logs" req now q hne
  · intro other rest hother
    rw [logsServer_Export_fs]
    exact SinkExport_other_stream_dirs marshal ls.sink ctx fl fs "logs" req now
      other rest hother

/-- Witness for C8: a concrete trace export does not disturb the
metrics stream's directory. -/
theorem c8_witness :
    ((["data", "metrics"] : Path) ∈ ((traceServer.Export (fun _ : Unit => .ok [7])
        (fun _ => "[req]") { sink := { dir := "data" } } { err := none } noFaults
        { dirs := [], files := [] } () 5).fs).dirs ↔
      (["data", "metrics"] : Path) ∈ ([] : List Path)) :=
  (c8_stream_isolation (fun _ : Unit => .ok [7]) (fun _ => "[req]")
    { sink := { dir := "data" } } { sink := { dir := "data" } }
    { sink := { dir := "data" } } { err := none } noFaults
    { dirs := [], files := [] } () 5).2.1 "metrics" [] (by decide)

/-- C9: the persistence sink's Export never observes its context
argument: for any two contexts (cancelled or not) and otherwise equal
inputs it performs the same filesystem mutation and returns the same
result, so a write in progress is never interrupted by cancellation. -/
theorem c9_export_ignores_cancellation {μ : Type}
    (marshal : μ → Except String Bytes) (s : Sink) (ctx1 ctx2 : Ctx)
    (fl : Faults) (fs : FS) (stream : String) (msg : μ) (now : Int) :
    Sink.Export marshal s ctx1 fl fs stream msg now =
      Sink.Export marshal s ctx2 fl fs stream msg now := rfl

/-- Witness for C9: a cancelled and an uncancelled context give the
same concrete export result. -/
theorem c9_witness :
    Sink.Export (fun _ : Unit => .ok [7]) { dir := "data" } interruptedCtx
      noFaults { dirs := [], files := [] } "traces" () 5 =
    Sink.Export (fun _ : Unit => .ok [7]) { dir := "data" } { err := none }
      noFaults { dirs := [], files := [] } "traces" () 5 :=
  c9_export_ignores_cancellation (fun _ : Unit => .ok [7]) { dir := "data" }
    interruptedCtx { err := none } noFaults { dirs := [], files := [] }
    "traces" () 5

/-- C10: when an interrupt arrives during normal serving, the signal
context is cancelled with a non-nil error, `run` returns exactly that
error from its select, and `main` prints it and exits with status 1, so
a clean interrupt-triggered shutdown still exits non-zero. -/
theorem c10_interrupt_exits_nonzero (e : String) (ctx : Ctx)
    (hc : ctx.err = some e) :
    run ctx (.ok ()) .ctxDone = some e ∧
    mainExitCode (run ctx (.ok ()) .ctxDone) = 1 ∧
    mainStderr (run ctx (.ok ()) .ctxDone) = [e] ∧
    mainExitCode (run ctx (.ok ()) .ctxDone) ≠ 0 := by
  simp [run, hc, mainExitCode, mainStderr]

/-- Witness for C10: the concrete interrupted context produced by
`signal.NotifyContext` carries `context.Canceled` and leads to exit
status 1. -/
theorem c10_witness :
    run interruptedCtx (.ok ()) .ctxDone = some contextCanceled ∧
    mainExitCode (run interruptedCtx (.ok ()) .ctxDone) = 1 ∧
    mainStderr (run interruptedCtx (.ok ()) .ctxDone) = [contextCanceled] ∧
    mainExitCode (run interruptedCtx (.ok ()) .ctxDone) ≠ 0 :=
  c10_interrupt_exits_nonzero contextCanceled interruptedCtx rfl

end Otelsink
